import Mathlib

/-!
# Draveur-Manager — verification of the Supervisor/Scheduler specification

Shallow embedding of the process-orchestration backend of Draveur-Manager
(`src/backend`), covering:

* the task scheduler (`src/backend/src/services/system/scheduler.rs`,
  `check_and_run_tasks`);
* the Hytale install pipeline
  (`src/backend/src/api/servers/endpoints/lifecycle.rs`,
  `spawn_hytale_installation` / `run_with_logs`);
* the per-server log broadcaster and its WebSocket consumer
  (`src/backend/src/api/console.rs`, `handle_socket`);
* the player-roster maintenance driven by
  `src/backend/src/services/player_detection.rs`;
* the process registry (`ProcessManager`).  The `ProcessManager` source file
  itself is not part of the sources at hand (only its callers are), so its
  operations are modelled from the specification where noted.

Rust strings become `String`, SQLite integer flags become `Int`, process exit
statuses become `Bool` (`true` = exit code 0), and the effects of the async
code (subprocess launches, broadcasts, registry mutation, SQL deletes) become
explicit event lists produced by pure functions.
-/

namespace Draveur

/-! ## Scheduler data model

`ScheduleRow` and `ServerRow` mirror the columns that
`check_and_run_tasks` actually reads from the `schedules` and `servers`
tables (`SELECT * FROM schedules WHERE enabled = 1`,
`SELECT * FROM servers WHERE id = ?`).  `enabled` and `delete_after` are
SQLite integers (bound from booleans as 0/1); `time` and `cron_expression`
are nullable columns. -/

structure ScheduleRow where
  id : String
  server_id : String
  name : String
  task_type : String
  action : String
  time : Option String
  cron_expression : Option String
  enabled : Int
  delete_after : Int
  deriving Repr, DecidableEq

structure ServerRow where
  id : String
  name : String
  game_type : String
  executable_path : String
  working_dir : String
  java_path : Option String
  min_memory : Option String
  max_memory : Option String
  extra_args : Option String
  config : Option String
  deriving Repr, DecidableEq

/-- Observable effects of one pass of the scheduler task loop.  `actionStart`,
`actionStop`, `actionRestart` and `actionBackup` record an invocation of the
corresponding `ProcessManager`/backup operation (whose own success or failure
the loop discards via `let _ = ...`); `backupInserted` records the
`INSERT INTO backups` row written when `create_archive` succeeded;
`serverMissing` records the `eprintln!` branch for a schedule bound to a
nonexistent server; `deleteSchedule` records `DELETE FROM schedules`. -/
inductive SchedEvent where
  | actionStart (serverId : String)
  | actionStop (serverId : String)
  | actionRestart (serverId : String)
  | actionBackup (serverId : String)
  | backupInserted (serverId : String)
  | serverMissing (serverId : String) (scheduleId : String)
  | deleteSchedule (scheduleId : String)
  deriving Repr, DecidableEq

/-- Results of the fire-and-forget calls made by the task loop: `pm.start`,
`pm.stop`, `pm.restart` return `Result`s that the loop ignores, and
`backup::create_archive` returns `Result<u64>` whose `Ok` size is only used
for the `backups` insert.  The oracle supplies those results. -/
structure ActionOracle where
  startResult : String → Bool
  stopResult : String → Bool
  restartResult : String → Bool
  backupResult : String → Option Nat

/-- `SELECT * FROM servers WHERE id = ?` with `fetch_optional`. -/
def findServer (servers : List ServerRow) (sid : String) : Option ServerRow :=
  servers.find? (fun r => r.id == sid)

/-- `DELETE FROM schedules WHERE id = ?`. -/
def deleteFromSchedules (db : List ScheduleRow) (sid : String) : List ScheduleRow :=
  db.filter (fun r => !(r.id == sid))

/-- The trigger match of `check_and_run_tasks`: `basic` entries compare their
`time` column for string equality against the local time formatted `"%H:%M"`;
every other `task_type` (including `cron`) falls into the `_ => false` arm
(`// Cron not yet supported without a library`). -/
def should_run (s : ScheduleRow) (nowTime : String) : Bool :=
  match s.task_type with
  | "basic" =>
    match s.time with
    | some t => t == nowTime
    | none => false
  | _ => false

/-- Dispatch on `s.action` once the server row was found: the four recognised
actions invoke the corresponding operation and discard its result (for
`backup`, a successful `create_archive` additionally inserts a `backups`
row); an unrecognised action is the `_ => {}` arm. -/
def runAction (o : ActionOracle) (s : ScheduleRow) (srv : ServerRow) : List SchedEvent :=
  match s.action with
  | "start" =>
    let _ := o.startResult srv.id
    [.actionStart srv.id]
  | "stop" =>
    let _ := o.stopResult s.server_id
    [.actionStop s.server_id]
  | "restart" =>
    let _ := o.restartResult srv.id
    [.actionRestart srv.id]
  | "backup" =>
    match o.backupResult s.server_id with
    | some _ => [.actionBackup s.server_id, .backupInserted s.server_id]
    | none => [.actionBackup s.server_id]
  | _ => []

/-- The body of the `for s in schedules` loop of `check_and_run_tasks` for one
schedule row: evaluate the trigger; on a match, fetch the server row, run the
action (or hit the not-found branch), then delete the schedule when
`delete_after != 0`.  Returns the updated `schedules` table and the emitted
events. -/
def processSchedule (o : ActionOracle) (servers : List ServerRow)
    (db : List ScheduleRow) (s : ScheduleRow) (nowTime : String) :
    List ScheduleRow × List SchedEvent :=
  if should_run s nowTime then
    let actionEvs :=
      match findServer servers s.server_id with
      | some srv => runAction o s srv
      | none => [.serverMissing s.server_id s.id]
    if s.delete_after != 0 then
      (deleteFromSchedules db s.id, actionEvs ++ [.deleteSchedule s.id])
    else
      (db, actionEvs)
  else
    (db, [])

/-- One tick of `check_and_run_tasks`: load the enabled schedules
(`WHERE enabled = 1`), then run the loop body over that snapshot, threading
the `schedules` table (deletions take effect immediately) and concatenating
events. -/
def check_and_run_tasks (o : ActionOracle) (servers : List ServerRow)
    (db : List ScheduleRow) (nowTime : String) :
    List ScheduleRow × List SchedEvent :=
  let snapshot := db.filter (fun s => s.enabled == 1)
  snapshot.foldl
    (fun acc s =>
      let st := processSchedule o servers acc.1 s nowTime
      (st.1, acc.2 ++ st.2))
    (db, [])

/-! ## Local-time formatting

`chrono::Local::now().format("%H:%M")` renders the hour and the minute as two
zero-padded decimal digits.  A minute of the day `m < 1440` is rendered as
`"HH:MM"` with `HH = m / 60` and `MM = m % 60`. -/

/-- Two-digit zero-padded rendering of `n < 100` (the `%H` / `%M` fields). -/
def twoDigits (n : Nat) : String :=
  String.mk [Nat.digitChar (n / 10), Nat.digitChar (n % 10)]

/-- `"%H:%M"` for minute-of-day `m` (`m < 1440`). -/
def minuteString (m : Nat) : String :=
  twoDigits (m / 60) ++ ":" ++ twoDigits (m % 60)

/-- A 24-hour simulated run of the 60-second task loop: one
`check_and_run_tasks` tick per minute of the day, threading the `schedules`
table from tick to tick.  Returns, per minute, the events of that tick. -/
def runTicks (o : ActionOracle) (servers : List ServerRow)
    (db : List ScheduleRow) : List Nat → List (Nat × List SchedEvent)
  | [] => []
  | m :: ms =>
    let st := check_and_run_tasks o servers db (minuteString m)
    (m, st.2) :: runTicks o servers st.1 ms

/-- Whether an event is an invocation of one of the four registry/backup
actions. -/
def SchedEvent.isAction : SchedEvent → Bool
  | .actionStart _ => true
  | .actionStop _ => true
  | .actionRestart _ => true
  | .actionBackup _ => true
  | _ => false

/-- Whether a tick fired at least one action. -/
def firedAction (evs : List SchedEvent) : Bool :=
  evs.any SchedEvent.isAction

/-! ## Cron trigger semantics

The specification describes `cron` entries as firing when "the next scheduled
occurrence computed from one second ago falls within the current minute".  No
cron evaluation exists in the sources at hand (the match arm of the scheduler is
`_ => false`), so the trigger predicate below is modelled from the spec, for
comparison against the code.  A cron expression is reduced to its minute and
hour fields, each either a wildcard (`none`, written `*`) or a fixed value;
occurrences happen at second 0 of every matching minute of the day. -/

structure CronExpr where
  minuteField : Option Nat
  hourField : Option Nat
  deriving Repr, DecidableEq

/-- Modelled from the spec: whether a cron field (wildcard or fixed value)
accepts a component of the current time. -/
def fieldMatches : Option Nat → Nat → Bool
  | none, _ => true
  | some v, n => v == n

/-- Modelled from the spec: whether minute-of-day `m` is a scheduled minute of
the expression. -/
def cronMatchesMinute (e : CronExpr) (m : Nat) : Bool :=
  fieldMatches e.minuteField (m % 60) && fieldMatches e.hourField (m / 60)

/-- Modelled from the spec: the next scheduled occurrence strictly after
second `t`, i.e. the first minute boundary after `t` whose minute-of-day
matches the expression (searching one day ahead). -/
def nextOccurrence (e : CronExpr) (t : Nat) : Option Nat :=
  ((List.range 1441).map (fun i => (t / 60 + 1 + i) * 60)).find?
    (fun s => cronMatchesMinute e (s / 60 % 1440))

/-- Modelled from the spec: the claimed `cron` trigger — the next occurrence
computed from one second before the tick at minute `m` (the tick runs at
second 0 of the minute) falls within minute `m`. -/
def cronClaimFires (e : CronExpr) (m : Nat) : Bool :=
  match nextOccurrence e (m * 60 - 1) with
  | some s => decide (m * 60 ≤ s ∧ s < m * 60 + 60)
  | none => false

/-! ## Process registry (`ProcessManager`)

The `ProcessManager` implementation file is not among the sources at hand —
only its callers (`scheduler.rs`, `console.rs`, `lifecycle.rs`, the route
handlers) are — so the registry operations are modelled from the
specification (§4.1): a concurrent map from server identity to a process
descriptor, a `start` that refuses to double-spawn, `remove`,
`register_installing`, and the state-query helpers.  `spawnCount` counts OS
process spawns so that "does not spawn a second process" is observable. -/

inductive ProcState where
  | starting
  | running
  | stopping
  | stopped
  | installing
  deriving Repr, DecidableEq

inductive PMError where
  | alreadyRunning
  | notRunning
  | spawnFailed
  | descriptorExists
  deriving Repr, DecidableEq

structure Registry where
  procs : List (String × ProcState)
  spawnCount : Nat
  deriving Repr, DecidableEq

def Registry.lookup (r : Registry) (id : String) : Option ProcState :=
  (r.procs.find? (fun p => p.1 == id)).map (·.2)

/-- Insert-or-overwrite of a descriptor (map insertion). -/
def setProc (procs : List (String × ProcState)) (id : String) (st : ProcState) :
    List (String × ProcState) :=
  procs.filter (fun p => !(p.1 == id)) ++ [(id, st)]

/-- Modelled from the spec: `start(id, ...)` fails with `AlreadyRunning` if a
live descriptor exists in Running/Starting state; otherwise it
creates/overwrites the descriptor, spawns the OS process (`spawnOk` is the
spawn outcome; a failed spawn yields `SpawnFailed`), and sets the state to
Running once the spawn is confirmed.  Returns the updated registry together
with the operation result; on error the registry is unchanged (no process
spawned). -/
def Registry.start (r : Registry) (id : String) (spawnOk : Bool) :
    Registry × Except PMError Unit :=
  match r.lookup id with
  | some .running => (r, .error .alreadyRunning)
  | some .starting => (r, .error .alreadyRunning)
  | _ =>
    if spawnOk then
      (⟨setProc r.procs id .running, r.spawnCount + 1⟩, .ok ())
    else
      (r, .error .spawnFailed)

/-- Modelled from the spec: `remove(id)` forcibly drops the descriptor (and
closes its broadcaster — see `Channel.close`). -/
def Registry.remove (r : Registry) (id : String) : Registry :=
  ⟨r.procs.filter (fun p => !(p.1 == id)), r.spawnCount⟩

/-- Modelled from the spec: `register_installing(id, ...)` creates a
descriptor in Installing state; fails if a descriptor already exists for
`id`. -/
def Registry.register_installing (r : Registry) (id : String) :
    Registry × Except PMError Unit :=
  match r.lookup id with
  | some _ => (r, .error .descriptorExists)
  | none => (⟨r.procs ++ [(id, .installing)], r.spawnCount⟩, .ok ())

/-- Modelled from the spec: `is_installing(id)` — false for unknown
identities. -/
def Registry.is_installing (r : Registry) (id : String) : Bool :=
  r.lookup id == some .installing

/-- Modelled from the spec: `is_running(id)` — false for unknown
identities. -/
def Registry.is_running (r : Registry) (id : String) : Bool :=
  r.lookup id == some .running

/-! ## Hytale install pipeline (`spawn_hytale_installation`)

`lifecycle.rs` spawns an outer task that (1) spawns the inner pipeline task,
gated on a oneshot channel `rx_start`, (2) calls
`pm.register_installing(id, ...)`, and (3) on success sends the start signal,
on failure aborts the inner task (the signal is never sent, so `rx_start`
errors and the inner task returns before performing any step).

The inner pipeline runs external subprocesses via `run_with_logs`, which
forwards their output and returns `Err` on a non-zero exit status.  Exit
statuses are embedded as `Nat` exit codes (0 = success); the per-line output
forwarding of each subprocess is summarised by the `runStep` event, and
filesystem housekeeping (deleting temp files and start scripts) has no
observable event.  The target OS is taken to be Linux (the deployment target;
the OS only selects the file name of the downloader binary). -/

inductive InstallEvent where
  | initLog (id : String)
  | broadcast (msg : String)
  | setAuthRequired (id : String)
  | runStep (cmd : String)
  | removeDesc (id : String)
  | setExecutablePath (id : String) (path : String)
  deriving Repr, DecidableEq

/-- Substring test on character lists (Rust `str::contains`). -/
def listContainsSub : List Char → List Char → Bool
  | [], needle => needle.isEmpty
  | hay@(_ :: t), needle => needle.isPrefixOf hay || listContainsSub t needle

/-- Rust `String::contains` for string literals. -/
def strContains (s pat : String) : Bool :=
  listContainsSub s.data pat.data

/-- The auth-prompt scan inside the `broadcast` closure of the pipeline. -/
def authTrigger (msg : String) : Bool :=
  (strContains msg "IMPORTANT" &&
    (strContains msg "authentifier" || strContains msg "authenticate")) ||
  strContains msg "[HytaleServer] No server tokens configured" ||
  strContains msg "/auth login to authenticate"

/-- The `broadcast` closure of the pipeline: set the auth-required flag when the
message matches an auth prompt, then `pm.broadcast_log` the message and
append it to the install-log file (both summarised by `.broadcast`). -/
def broadcastAndLog (id msg : String) : List InstallEvent :=
  (if authTrigger msg then [.setAuthRequired id] else []) ++ [.broadcast msg]

/-- The error message of `run_with_logs` for a non-zero exit status
(`format!("Command failed with exit code: {:?}", s.code())`). -/
def cmdFailedMsg (code : Nat) : String :=
  "Command failed with exit code: Some(" ++ toString code ++ ")"

/-- The nested-archive scan: for every `.zip` in the server directory other
than `hytale-downloader.zip` and `Assets.zip`, announce it, run `unzip`, and
report success or failure (failure is logged and the loop continues). -/
def extractNestedZips (id : String) : List (String × Nat) → List InstallEvent
  | [] => []
  | (name, code) :: rest =>
    broadcastAndLog id ("📦 Décompression du serveur : " ++ name ++ "...") ++
    [.runStep "unzip"] ++
    (if code != 0 then
      broadcastAndLog id ("❌ Erreur extraction: " ++ cmdFailedMsg code)
    else
      broadcastAndLog id "✅ Décompression terminée.") ++
    extractNestedZips id rest

/-- The inner pipeline task of `spawn_hytale_installation`, after the start
signal was received: download via `curl`, extract via `unzip`, `chmod` the
downloader, execute it, extract any nested server archives, check for
`HytaleServer.jar`, and finally `pm.remove(&id)`.  `curlCode`, `unzipCode`,
`chmodCode` and `dlCode` are the exit codes of the four subprocess steps;
`nested` lists the nested archives found with their `unzip` exit codes;
`jarFound` is whether `Server/HytaleServer.jar` exists afterwards.  A failing
`curl` or `unzip` broadcasts the failure, removes the descriptor and stops;
the `chmod` status is discarded (`let _`); a failing downloader execution or
nested extraction is logged and the pipeline continues. -/
def installTask (id : String) (curlCode unzipCode chmodCode dlCode : Nat)
    (nested : List (String × Nat)) (jarFound : Bool) : List InstallEvent :=
  [.initLog id] ++
  broadcastAndLog id "🚀 Initialization de l’installation du serveur..." ++
  broadcastAndLog id
    "⬇️ Téléchargement de Hytale Downloader depuis https://downloader.hytale.com/hytale-downloader.zip..." ++
  [.runStep "curl"] ++
  if curlCode != 0 then
    broadcastAndLog id ("❌ " ++ cmdFailedMsg curlCode) ++ [.removeDesc id]
  else
    broadcastAndLog id "✅ Téléchargement terminé." ++
    broadcastAndLog id "📦 Extraction de l’archive..." ++
    [.runStep "unzip"] ++
    if unzipCode != 0 then
      broadcastAndLog id ("❌ " ++ cmdFailedMsg unzipCode) ++ [.removeDesc id]
    else
      broadcastAndLog id "✅ Extraction terminée." ++
      broadcastAndLog id "🧹 Nettoyage des fichiers temporaires..." ++
      (let _ := chmodCode; [.runStep "chmod"]) ++
      broadcastAndLog id
        "⏳ Exécution du downloader (hytale-downloader-linux-amd64) pour récupérer le serveur..." ++
      broadcastAndLog id
        "⚠️ IMPORTANT : Le downloader va vous demander de vous authentifier via une URL." ++
      [.runStep "downloader"] ++
      (if dlCode != 0 then
        broadcastAndLog id ("❌ " ++ cmdFailedMsg dlCode)
      else
        broadcastAndLog id "✅ Downloader terminé avec succès.") ++
      extractNestedZips id nested ++
      (if jarFound then
        broadcastAndLog id "✨ HytaleServer.jar présent. Installation terminée !" ++
        [.setExecutablePath id "Server/HytaleServer.jar"]
      else
        broadcastAndLog id "⚠️ Attention: HytaleServer.jar non trouvé après exécution.") ++
      [.removeDesc id]

/-- The outer task of `spawn_hytale_installation`: the first await of the inner task is the oneshot `rx_start`; `register_installing` failure aborts the
inner task and drops the sender, so the inner task performs no step; success
sends the start signal and the pipeline runs. -/
def spawn_hytale_installation (reg : Registry) (id : String)
    (curlCode unzipCode chmodCode dlCode : Nat) (nested : List (String × Nat))
    (jarFound : Bool) : Registry × List InstallEvent :=
  match Registry.register_installing reg id with
  | (reg', .ok ()) =>
    (reg', installTask id curlCode unzipCode chmodCode dlCode nested jarFound)
  | (reg', .error _) => (reg', [])

/-- Effect of the pipeline events on the registry (only `pm.remove`
mutates it; broadcasts and SQL updates target other components). -/
def applyInstallEvents (reg : Registry) : List InstallEvent → Registry
  | [] => reg
  | .removeDesc id :: rest => applyInstallEvents (reg.remove id) rest
  | _ :: rest => applyInstallEvents reg rest

/-! ## Log broadcaster (`tokio::sync::broadcast`) and the console loop

Each descriptor owns a broadcast channel of fixed capacity; `subscribe_logs`
returns a new receiver positioned after every message already sent
(forward-only), `broadcast_log` sends without ever inspecting or waiting on
receivers, and `remove` closes the channel.  The `ProcessManager` file being
absent from the sources at hand, the channel is modelled from the spec and
the documented `tokio` broadcast semantics its callers rely on
(`console.rs`): a receiver that is more than `capacity` messages behind gets
`RecvError::Lagged(n)` with the number of skipped messages and is caught up
to the oldest retained message; a receiver at the head gets `Closed` once the
channel is closed, `pending` (awaiting) otherwise.  the send loop of `handle_socket` forwards `Ok` lines, logs `Lagged` and continues, and returns on
`Closed`; `Channel.drain` is that loop, stopping when it would block. -/

structure Channel where
  capacity : Nat
  history : List String
  closed : Bool
  deriving Repr, DecidableEq

structure Subscriber where
  pos : Nat
  deriving Repr, DecidableEq

/-- `broadcast_log` / publishing one line: append to the stream.  Total, and
independent of any receiver state: publishing never blocks on subscribers. -/
def Channel.send (ch : Channel) (msg : String) : Channel :=
  { ch with history := ch.history ++ [msg] }

/-- Closing the broadcaster (done by `remove(id)`). -/
def Channel.close (ch : Channel) : Channel :=
  { ch with closed := true }

/-- `subscribe_logs(id)`: a fresh receiver sees only messages sent after this
point. -/
def Channel.subscribe (ch : Channel) : Subscriber :=
  ⟨ch.history.length⟩

inductive RecvResult where
  | line (s : String)
  | lagged (n : Nat)
  | closedEnd
  | pending
  deriving Repr, DecidableEq

/-- One `recv` on a broadcast receiver. -/
def Channel.recv (ch : Channel) (sub : Subscriber) : RecvResult × Subscriber :=
  let len := ch.history.length
  if _ : sub.pos + ch.capacity < len then
    (.lagged (len - ch.capacity - sub.pos), ⟨len - ch.capacity⟩)
  else if h : sub.pos < len then
    (.line (ch.history.get ⟨sub.pos, h⟩), ⟨sub.pos + 1⟩)
  else if ch.closed then
    (.closedEnd, sub)
  else
    (.pending, sub)

/-- The `handle_socket` send loop: repeatedly `recv`, forwarding lines and
lag notices, returning on `Closed`; `pending` marks the suspension point
where the loop awaits the next line (the channel does not change during one
drain).  `fuel` bounds the number of iterations. -/
def Channel.drain (ch : Channel) (sub : Subscriber) : Nat → List RecvResult
  | 0 => []
  | fuel + 1 =>
    match ch.recv sub with
    | (.pending, _) => [.pending]
    | (.closedEnd, _) => [.closedEnd]
    | (res, sub') => res :: ch.drain sub' fuel

/-- The lines actually delivered among the receive results. -/
def receivedLines (rs : List RecvResult) : List String :=
  rs.filterMap (fun r => match r with | .line s => some s | _ => none)

/-! ## Player roster maintenance

The regular-expression pattern sets live in
`services/player_detection.rs`; the code applying them to each output line
and mutating the online-player set of the descriptor is in the absent
`ProcessManager` file, so it is modelled from the spec: on a join match add
the captured name to the online-player set (if not already present), on a
leave match remove it, otherwise leave the roster unchanged.  The roster (as
returned by `get_online_players`) is a set of names, embedded as a
duplicate-free list. -/

inductive LineEvent where
  | join (name : String)
  | leave (name : String)
  | other
  deriving Repr, DecidableEq

/-- Modelled from the spec: the per-line roster update of the Player Detector. -/
def applyLine (roster : List String) : LineEvent → List String
  | .join n => if n ∈ roster then roster else roster ++ [n]
  | .leave n => roster.erase n
  | .other => roster

/-! ## Sample data used by witnesses and counterexamples -/

/-- An oracle whose actions all succeed. -/
def sampleOracle : ActionOracle :=
  ⟨fun _ => true, fun _ => true, fun _ => true, fun _ => some 0⟩

def sampleServer : ServerRow :=
  ⟨"sv1", "My Server", "hytale", "Server/HytaleServer.jar", "/srv/sv1",
   none, none, none, none, none⟩

/-- An enabled basic schedule: restart `sv1` at 03:00, not one-shot. -/
def sampleBasicRow : ScheduleRow :=
  ⟨"sch1", "sv1", "nightly restart", "basic", "restart", some "03:00", none, 1, 0⟩

/-- An enabled cron schedule firing every minute (`* * * * *`). -/
def sampleCronRow : ScheduleRow :=
  ⟨"sch2", "sv1", "cron job", "cron", "restart", none, some "* * * * *", 1, 0⟩

/-- The `CronExpr` denoted by `"* * * * *"`: both fields wildcards. -/
def wildcardCron : CronExpr := ⟨none, none⟩

/-! ## Helper lemmas -/

theorem find?_filter_ne (procs : List (String × ProcState)) (id : String) :
    (procs.filter (fun p => !(p.1 == id))).find? (fun p => p.1 == id) = none := by
  rw [List.find?_eq_none]
  intro x hx
  simp only [List.mem_filter, Bool.not_eq_true'] at hx
  simp [hx.2]

theorem lookup_setProc (procs : List (String × ProcState)) (id : String) (st : ProcState) :
    Registry.lookup ⟨setProc procs id st, 0⟩ id = some st := by
  simp only [Registry.lookup, setProc, List.find?_append, find?_filter_ne]
  simp [List.find?]

theorem lookup_remove (r : Registry) (id : String) :
    (r.remove id).lookup id = none := by
  simp only [Registry.remove, Registry.lookup]
  rw [find?_filter_ne]
  rfl

theorem is_installing_remove (r : Registry) (id : String) :
    (r.remove id).is_installing id = false := by
  simp [Registry.is_installing, lookup_remove]

/-- The registry only depends on the descriptor list, not on `spawnCount`,
for lookups. -/
theorem lookup_mk (procs : List (String × ProcState)) (n : Nat) (id : String) :
    Registry.lookup ⟨procs, n⟩ id = Registry.lookup ⟨procs, 0⟩ id := rfl

theorem digitChar_inj {a b : Nat} (ha : a < 10) (hb : b < 10)
    (h : Nat.digitChar a = Nat.digitChar b) : a = b := by
  revert h
  interval_cases a <;> interval_cases b <;> decide

theorem minuteString_inj {m1 m2 : Nat} (h1 : m1 < 1440) (h2 : m2 < 1440)
    (h : minuteString m1 = minuteString m2) : m1 = m2 := by
  have hd : (minuteString m1).data = (minuteString m2).data := by rw [h]
  simp only [minuteString, twoDigits, String.data_append,
    List.cons.injEq, List.append_assoc, List.cons_append, List.nil_append] at hd
  obtain ⟨a1, a2, -, a3, a4, -⟩ := hd
  have e1 : m1 / 60 / 10 = m2 / 60 / 10 := digitChar_inj (by omega) (by omega) a1
  have e2 : m1 / 60 % 10 = m2 / 60 % 10 := digitChar_inj (by omega) (by omega) a2
  have e3 : m1 % 60 / 10 = m2 % 60 / 10 := digitChar_inj (by omega) (by omega) a3
  have e4 : m1 % 60 % 10 = m2 % 60 % 10 := digitChar_inj (by omega) (by omega) a4
  omega

/-! ## C1 — `start` refuses a live descriptor -/

/-- C1: for every server identity `id`, if a live descriptor for `id` exists
in Running or Starting state, `start(id, ...)` fails with `AlreadyRunning`
and leaves the registry — in particular its spawn count — unchanged (no
second OS process); and `start(id)` followed immediately by a second
`start(id)` with no intervening stop or exit makes the second call fail with
`AlreadyRunning`, the registry keeping the single spawn of the first call. -/
theorem start_rejects_live_descriptor :
    (∀ (r : Registry) (id : String) (b : Bool),
      r.lookup id = some .running ∨ r.lookup id = some .starting →
        Registry.start r id b = (r, .error .alreadyRunning)) ∧
    (∀ (r r' : Registry) (id : String) (b : Bool),
      Registry.start r id true = (r', .ok ()) →
        r'.spawnCount = r.spawnCount + 1 ∧
        Registry.start r' id b = (r', .error .alreadyRunning)) := by
  constructor
  · intro r id b h
    rcases h with h | h <;> simp [Registry.start, h]
  · intro r r' id b h
    unfold Registry.start at h
    split at h
    · exact absurd (congrArg Prod.snd h) (by simp)
    · exact absurd (congrArg Prod.snd h) (by simp)
    · simp only [if_pos] at h
      have hr' : r' = ⟨setProc r.procs id .running, r.spawnCount + 1⟩ :=
        (congrArg Prod.fst h).symm
      have hlook : r'.lookup id = some .running := by
        rw [hr', lookup_mk]
        exact lookup_setProc r.procs id .running
      refine ⟨by rw [hr'], ?_⟩
      simp [Registry.start, hlook]

/-- Witness for C1 at concrete inputs: a registry holding `sv1` in Running
state rejects `start`, and a fresh `start` followed by a second `start`
rejects the second while having spawned exactly once. -/
theorem start_rejects_live_descriptor_witness :
    (Registry.start ⟨[("sv1", ProcState.running)], 1⟩ "sv1" true =
      (⟨[("sv1", ProcState.running)], 1⟩, .error .alreadyRunning)) ∧
    (⟨[("sv1", ProcState.running)], 1⟩ : Registry).spawnCount = (⟨[], 0⟩ : Registry).spawnCount + 1 ∧
    Registry.start ⟨[("sv1", ProcState.running)], 1⟩ "sv1" false =
      (⟨[("sv1", ProcState.running)], 1⟩, .error .alreadyRunning) := by
  refine ⟨?_, ?_⟩
  · exact start_rejects_live_descriptor.1 _ "sv1" true (Or.inl rfl)
  · exact start_rejects_live_descriptor.2 ⟨[], 0⟩ ⟨[("sv1", ProcState.running)], 1⟩
      "sv1" false rfl

/-! ## C7 — player-roster idempotence -/

/-- C7: feeding the Player Detector the same join line for player `x` twice
leaves `x` present exactly once in the online-player set (and the set stays
duplicate-free); a subsequent matching leave line removes `x`; and a leave
line for a player who never joined is a no-op, not an error. -/
theorem player_roster_idempotence (r : List String) (x : String) (hnd : r.Nodup) :
    ((applyLine (applyLine r (.join x)) (.join x)).count x = 1 ∧
      (applyLine (applyLine r (.join x)) (.join x)).Nodup ∧
      x ∉ applyLine (applyLine (applyLine r (.join x)) (.join x)) (.leave x)) ∧
    (x ∉ r → applyLine r (.leave x) = r) := by
  have hmem : x ∈ applyLine r (.join x) := by
    by_cases h : x ∈ r <;> simp [applyLine, h]
  have hnd1 : (applyLine r (.join x)).Nodup := by
    by_cases h : x ∈ r <;> simp [applyLine, h, hnd, List.nodup_append]
  have hjoin2 : applyLine (applyLine r (.join x)) (.join x) = applyLine r (.join x) := by
    generalize hR : applyLine r (.join x) = R at hmem ⊢
    simp [applyLine, hmem]
  refine ⟨⟨?_, ?_, ?_⟩, ?_⟩
  · rw [hjoin2]
    exact List.count_eq_one_of_mem hnd1 hmem
  · rw [hjoin2]; exact hnd1
  · rw [hjoin2]
    exact hnd1.not_mem_erase
  · intro h
    simp [applyLine, List.erase_of_not_mem h]

/-- Witness for C7: joining `PlayerX` twice on a roster already holding
`Alice` yields one `PlayerX`, the matching leave removes it, and leaving
never-joined `Bob` changes nothing. -/
theorem player_roster_idempotence_witness :
    ((applyLine (applyLine ["Alice"] (.join "PlayerX")) (.join "PlayerX")).count "PlayerX" = 1 ∧
      (applyLine (applyLine ["Alice"] (.join "PlayerX")) (.join "PlayerX")).Nodup ∧
      "PlayerX" ∉
        applyLine (applyLine (applyLine ["Alice"] (.join "PlayerX")) (.join "PlayerX"))
          (.leave "PlayerX")) ∧
    ("Bob" ∉ ["Alice"] → applyLine ["Alice"] (.leave "Bob") = ["Alice"]) := by
  exact ⟨(player_roster_idempotence ["Alice"] "PlayerX" (by decide)).1,
    (player_roster_idempotence ["Alice"] "Bob" (by decide)).2⟩

/-! ## C4 — cron triggers -/

/-- C4 (amended): for every Schedule Entry whose `task_type` is `cron`, the
task loop never invokes any Registry action and never deletes the entry: the
`_ => false` arm of the trigger match applies (cron is not yet supported), so the
loop body is a no-op for the entry. -/
theorem cron_entries_never_fire (o : ActionOracle) (servers : List ServerRow)
    (db : List ScheduleRow) (s : ScheduleRow) (now : String)
    (h : s.task_type = "cron") :
    processSchedule o servers db s now = (db, []) := by
  simp [processSchedule, should_run, h]

/-- Witness for C4 (amended): the sample cron entry produces no event at the
03:00 tick. -/
theorem cron_entries_never_fire_witness :
    sampleCronRow.task_type = "cron" ∧
    processSchedule sampleOracle [sampleServer] [sampleCronRow] sampleCronRow
      (minuteString 180) = ([sampleCronRow], []) := by
  exact ⟨rfl, cron_entries_never_fire sampleOracle [sampleServer] [sampleCronRow]
    sampleCronRow (minuteString 180) rfl⟩

set_option maxRecDepth 10000 in
/-- Counterexample to C4 as stated: for the every-minute expression
`* * * * *`, the next scheduled occurrence computed from one second before
the 03:00 tick falls within that minute, so the claim requires the action of the entry to be invoked — yet the task loop emits no event at all for the entry
(cron entries never match). -/
theorem cron_claim_counterexample :
    cronClaimFires wildcardCron 180 = true ∧
    check_and_run_tasks sampleOracle [sampleServer] [sampleCronRow]
      (minuteString 180) = ([sampleCronRow], []) := by
  constructor
  · decide
  · rfl

/-! ## C8 — action results are ignored; deletion follows `delete_after` -/

theorem deleteSchedule_not_mem_runAction (o : ActionOracle) (s : ScheduleRow)
    (srv : ServerRow) (sid : String) :
    SchedEvent.deleteSchedule sid ∉ runAction o s srv := by
  unfold runAction
  split <;> first
    | simp
    | (split <;> simp)

theorem isAction_runAction_countP (o : ActionOracle) (s : ScheduleRow) (srv : ServerRow)
    (hact : s.action ∈ ["start", "stop", "restart", "backup"]) :
    (runAction o s srv).countP (fun e => e.isAction) = 1 := by
  unfold runAction
  simp only [List.mem_cons, List.not_mem_nil, or_false] at hact
  rcases hact with h | h | h | h
  · simp [h, List.countP_cons, SchedEvent.isAction]
  · simp [h, List.countP_cons, SchedEvent.isAction]
  · simp [h, List.countP_cons, SchedEvent.isAction]
  · rw [h]
    cases o.backupResult s.server_id <;>
      simp [List.countP_cons, SchedEvent.isAction]

/-- C8: whenever the task loop fires a matched Schedule Entry, the invoked action succeeding or failing is ignored — the resulting `schedules` table
and the presence of the deletion are identical under any two result oracles —
and afterwards the entry is deleted if and only if its `delete_after` flag is
set, regardless of whether the action succeeded or the server row even
existed. -/
theorem scheduled_action_result_ignored :
    (∀ (o₁ o₂ : ActionOracle) (servers : List ServerRow) (db : List ScheduleRow)
        (s : ScheduleRow) (now : String),
      (processSchedule o₁ servers db s now).1 = (processSchedule o₂ servers db s now).1 ∧
      (SchedEvent.deleteSchedule s.id ∈ (processSchedule o₁ servers db s now).2 ↔
        SchedEvent.deleteSchedule s.id ∈ (processSchedule o₂ servers db s now).2)) ∧
    (∀ (o : ActionOracle) (servers : List ServerRow) (db : List ScheduleRow)
        (s : ScheduleRow) (now : String),
      should_run s now = true →
        (SchedEvent.deleteSchedule s.id ∈ (processSchedule o servers db s now).2 ↔
          s.delete_after ≠ 0) ∧
        (processSchedule o servers db s now).1 =
          (if s.delete_after != 0 then deleteFromSchedules db s.id else db)) := by
  have hmem : ∀ (o : ActionOracle) (servers : List ServerRow) (s : ScheduleRow),
      SchedEvent.deleteSchedule s.id ∉
        (match findServer servers s.server_id with
          | some srv => runAction o s srv
          | none => [.serverMissing s.server_id s.id]) := by
    intro o servers s
    cases findServer servers s.server_id with
    | some srv => exact deleteSchedule_not_mem_runAction o s srv s.id
    | none => simp
  constructor
  · intro o₁ o₂ servers db s now
    by_cases hrun : should_run s now
    · by_cases hda : s.delete_after != 0 <;>
        simp [processSchedule, hrun, hda, hmem o₁ servers s, hmem o₂ servers s]
    · simp [processSchedule, hrun]
  · intro o servers db s now hrun
    by_cases hda : s.delete_after != 0
    · constructor
      · simp only [processSchedule, hrun, if_true, hda]
        simp [hmem o servers s]
        simpa using hda
      · simp [processSchedule, hrun, hda]
    · constructor
      · simp only [processSchedule, hrun, if_true, hda, if_false]
        simp [hmem o servers s]
        simpa using hda
      · simp [processSchedule, hrun, hda]

/-- Witness for C8: the sample basic entry (one-shot variant) at its 03:00
tick is deleted whatever the oracle says, and the non-one-shot variant is
kept. -/
theorem scheduled_action_result_ignored_witness :
    ((processSchedule sampleOracle [sampleServer] [sampleBasicRow] sampleBasicRow "03:00").1 =
      (processSchedule ⟨fun _ => false, fun _ => false, fun _ => false, fun _ => none⟩
        [sampleServer] [sampleBasicRow] sampleBasicRow "03:00").1) ∧
    ((SchedEvent.deleteSchedule sampleBasicRow.id ∈
        (processSchedule sampleOracle [sampleServer] [sampleBasicRow] sampleBasicRow
          "03:00").2) ↔ sampleBasicRow.delete_after ≠ 0) := by
  constructor
  · exact (scheduled_action_result_ignored.1 sampleOracle
      ⟨fun _ => false, fun _ => false, fun _ => false, fun _ => none⟩
      [sampleServer] [sampleBasicRow] sampleBasicRow "03:00").1
  · exact (scheduled_action_result_ignored.2 sampleOracle [sampleServer] [sampleBasicRow]
      sampleBasicRow "03:00" (by decide)).1

/-! ## C10 — matched entry bound to a nonexistent server -/

/-- C10: when an enabled basic entry matches the current minute but its bound
server has no row in the `servers` table, the loop invokes no Registry
action for it (only the not-found report), yet still deletes the entry if
`delete_after` is set. -/
theorem schedule_missing_server (o : ActionOracle) (servers : List ServerRow)
    (db : List ScheduleRow) (s : ScheduleRow) (t : String)
    (hty : s.task_type = "basic") (htime : s.time = some t)
    (hsrv : findServer servers s.server_id = none) :
    processSchedule o servers db s t =
      (if s.delete_after != 0 then deleteFromSchedules db s.id else db,
        SchedEvent.serverMissing s.server_id s.id ::
          (if s.delete_after != 0 then [SchedEvent.deleteSchedule s.id] else [])) ∧
    firedAction (processSchedule o servers db s t).2 = false := by
  have hrun : should_run s t = true := by simp [should_run, hty, htime]
  have heq : processSchedule o servers db s t =
      (if s.delete_after != 0 then deleteFromSchedules db s.id else db,
        SchedEvent.serverMissing s.server_id s.id ::
          (if s.delete_after != 0 then [SchedEvent.deleteSchedule s.id] else [])) := by
    by_cases hda : s.delete_after != 0 <;> simp [processSchedule, hrun, hsrv, hda]
  refine ⟨heq, ?_⟩
  rw [heq]
  by_cases hda : s.delete_after != 0 <;>
    simp [hda, firedAction, SchedEvent.isAction]

/-- Witness for C10: a one-shot 03:00 entry bound to the absent server
`ghost` is consumed without any action firing. -/
theorem schedule_missing_server_witness :
    processSchedule sampleOracle [] [⟨"sch3", "ghost", "oneshot", "basic", "stop",
        some "03:00", none, 1, 1⟩]
      ⟨"sch3", "ghost", "oneshot", "basic", "stop", some "03:00", none, 1, 1⟩ "03:00" =
      ([], [SchedEvent.serverMissing "ghost" "sch3", SchedEvent.deleteSchedule "sch3"]) ∧
    firedAction (processSchedule sampleOracle []
      [⟨"sch3", "ghost", "oneshot", "basic", "stop", some "03:00", none, 1, 1⟩]
      ⟨"sch3", "ghost", "oneshot", "basic", "stop", some "03:00", none, 1, 1⟩ "03:00").2 =
      false := by
  have h := schedule_missing_server sampleOracle []
    [⟨"sch3", "ghost", "oneshot", "basic", "stop", some "03:00", none, 1, 1⟩]
    ⟨"sch3", "ghost", "oneshot", "basic", "stop", some "03:00", none, 1, 1⟩ "03:00"
    rfl rfl rfl
  exact ⟨h.1, h.2⟩

/-! ## C3 — a basic entry fires exactly once per day -/

theorem check_empty (o : ActionOracle) (servers : List ServerRow) (now : String) :
    check_and_run_tasks o servers [] now = ([], []) := rfl

theorem check_single_nomatch (o : ActionOracle) (servers : List ServerRow)
    (s : ScheduleRow) (now : String) (hen : s.enabled = 1)
    (hrun : should_run s now = false) :
    check_and_run_tasks o servers [s] now = ([s], []) := by
  simp [check_and_run_tasks, hen, processSchedule, hrun]

theorem check_single_match (o : ActionOracle) (servers : List ServerRow)
    (s : ScheduleRow) (srv : ServerRow) (t : String) (hen : s.enabled = 1)
    (hrun : should_run s t = true)
    (hsrv : findServer servers s.server_id = some srv) :
    check_and_run_tasks o servers [s] t =
      ((if s.delete_after != 0 then [] else [s]),
        runAction o s srv ++
          (if s.delete_after != 0 then [SchedEvent.deleteSchedule s.id] else [])) := by
  by_cases hda : s.delete_after = 0
  · have hb : (s.delete_after != 0) = false := by simp [hda]
    simp [check_and_run_tasks, hen, processSchedule, hrun, hsrv, hb, deleteFromSchedules]
    exact hda
  · have hb : (s.delete_after != 0) = true := by simpa using hda
    simp [check_and_run_tasks, hen, processSchedule, hrun, hsrv, hb, deleteFromSchedules]
    exact hda

theorem runTicks_empty_db (o : ActionOracle) (servers : List ServerRow) (ms : List Nat) :
    runTicks o servers [] ms = ms.map (fun m => (m, [])) := by
  induction ms with
  | nil => rfl
  | cons m ms ih => simp [runTicks, check_empty, ih]

theorem runTicks_nomatch_all (o : ActionOracle) (servers : List ServerRow)
    (s : ScheduleRow) (hen : s.enabled = 1) (ms : List Nat)
    (h : ∀ m ∈ ms, should_run s (minuteString m) = false) :
    runTicks o servers [s] ms = ms.map (fun m => (m, [])) := by
  induction ms with
  | nil => rfl
  | cons m ms ih =>
    have hc := check_single_nomatch o servers s (minuteString m) hen
      (h m (List.mem_cons_self m ms))
    simp only [runTicks, hc]
    exact congrArg _ (ih (fun m' hm' => h m' (List.mem_cons_of_mem m hm')))

theorem runTicks_append_nomatch (o : ActionOracle) (servers : List ServerRow)
    (s : ScheduleRow) (hen : s.enabled = 1) (pre rest : List Nat)
    (h : ∀ m ∈ pre, should_run s (minuteString m) = false) :
    runTicks o servers [s] (pre ++ rest) =
      pre.map (fun m => (m, [])) ++ runTicks o servers [s] rest := by
  induction pre with
  | nil => rfl
  | cons m ms ih =>
    have hc := check_single_nomatch o servers s (minuteString m) hen
      (h m (List.mem_cons_self m ms))
    simp only [List.cons_append, runTicks, hc, List.map_cons]
    exact congrArg _ (ih (fun m' hm' => h m' (List.mem_cons_of_mem m hm')))

theorem filter_fired_of_empty_events (l : List Nat) :
    (l.map (fun m => (m, ([] : List SchedEvent)))).filter (fun p => firedAction p.2) = [] := by
  induction l with
  | nil => rfl
  | cons m ms ih => simp [firedAction, ih]

/-- C3: an enabled basic Schedule Entry with trigger time `t = "HH:MM"`
(the local-time rendering of minute-of-day `m₀`), bound to an existing server
and carrying a recognised action, fires exactly once over a 24-hour run of
the one-tick-per-minute task loop — at minute `m₀` and at no other minute —
and the firing tick invokes exactly one action. -/
theorem basic_schedule_fires_once (o : ActionOracle) (servers : List ServerRow)
    (s : ScheduleRow) (srv : ServerRow) (m₀ : Nat)
    (hty : s.task_type = "basic") (htime : s.time = some (minuteString m₀))
    (hen : s.enabled = 1) (hm : m₀ < 1440)
    (hsrv : findServer servers s.server_id = some srv)
    (hact : s.action ∈ ["start", "stop", "restart", "backup"]) :
    ((runTicks o servers [s] (List.range 1440)).filter
        (fun p => firedAction p.2)).map Prod.fst = [m₀] ∧
    (check_and_run_tasks o servers [s] (minuteString m₀)).2.countP
        (fun e => e.isAction) = 1 := by
  have hfire : should_run s (minuteString m₀) = true := by
    simp [should_run, hty, htime]
  have hnof : ∀ m, m < 1440 → m ≠ m₀ → should_run s (minuteString m) = false := by
    intro m hm' hne
    simp only [should_run, hty, htime]
    rw [beq_eq_false_iff_ne]
    exact fun hcon => hne (minuteString_inj hm hm' hcon).symm
  have hcount : (runAction o s srv).countP (fun e => e.isAction) = 1 :=
    isAction_runAction_countP o s srv hact
  have hanyRA : (runAction o s srv).any SchedEvent.isAction = true := by
    rw [List.any_eq_true]
    have hpos : 0 < (runAction o s srv).countP (fun e => e.isAction) := by omega
    obtain ⟨a, ha, hpa⟩ := List.countP_pos_iff.mp hpos
    exact ⟨a, ha, hpa⟩
  have hfired : ∀ l : List SchedEvent, firedAction (runAction o s srv ++ l) = true := by
    intro l
    rw [firedAction, List.any_append, hanyRA, Bool.true_or]
  have hmatch := check_single_match o servers s srv (minuteString m₀) hen hfire hsrv
  -- split the day at m₀
  have hsplit : List.range 1440 =
      List.range m₀ ++ m₀ :: (List.range (1439 - m₀)).map (fun x => m₀ + (x + 1)) := by
    have h1 : List.range 1440 = List.range m₀ ++
        (List.range (1440 - m₀)).map (fun x => m₀ + x) := by
      rw [← List.range_add]
      congr 1
      omega
    have h2 : 1440 - m₀ = (1439 - m₀) + 1 := by omega
    rw [h1, h2, List.range_succ_eq_map]
    simp [List.map_map, Function.comp]
  have hpre : ∀ m ∈ List.range m₀, should_run s (minuteString m) = false := by
    intro m hmem
    have : m < m₀ := List.mem_range.mp hmem
    exact hnof m (by omega) (by omega)
  have htail : ∀ m ∈ (List.range (1439 - m₀)).map (fun x => m₀ + (x + 1)),
      should_run s (minuteString m) = false := by
    intro m hmem
    obtain ⟨x, hx, rfl⟩ := List.mem_map.mp hmem
    have : x < 1439 - m₀ := List.mem_range.mp hx
    exact hnof _ (by omega) (by omega)
  constructor
  · rw [hsplit, runTicks_append_nomatch o servers s hen _ _ hpre]
    by_cases hda : s.delete_after = 0
    · have hb : (s.delete_after != 0) = false := by simp [hda]
      have hm2 : check_and_run_tasks o servers [s] (minuteString m₀) =
          ([s], runAction o s srv) := by
        rw [hmatch, hb]
        simp
      simp only [runTicks, hm2]
      rw [runTicks_nomatch_all o servers s hen _ htail]
      rw [List.filter_append, filter_fired_of_empty_events, List.nil_append]
      rw [List.filter_cons_of_pos (by simpa using hfired [])]
      rw [filter_fired_of_empty_events]
      rfl
    · have hb : (s.delete_after != 0) = true := by simpa using hda
      have hm2 : check_and_run_tasks o servers [s] (minuteString m₀) =
          ([], runAction o s srv ++ [SchedEvent.deleteSchedule s.id]) := by
        rw [hmatch, hb]
        simp
      simp only [runTicks, hm2]
      rw [runTicks_empty_db]
      rw [List.filter_append, filter_fired_of_empty_events, List.nil_append]
      rw [List.filter_cons_of_pos (by simpa using hfired [SchedEvent.deleteSchedule s.id])]
      rw [filter_fired_of_empty_events]
      rfl
  · rw [hmatch, List.countP_append, hcount]
    by_cases hda : s.delete_after = 0
    · have hb : (s.delete_after != 0) = false := by simp [hda]
      simp [hb]
    · have hb : (s.delete_after != 0) = true := by simpa using hda
      simp [hb, SchedEvent.isAction]

/-- Witness for C3: the sample 03:00 restart entry fires exactly at minute
180 of the simulated day, with one action invocation at that tick. -/
theorem basic_schedule_fires_once_witness :
    ((runTicks sampleOracle [sampleServer] [sampleBasicRow] (List.range 1440)).filter
        (fun p => firedAction p.2)).map Prod.fst = [180] ∧
    (check_and_run_tasks sampleOracle [sampleServer] [sampleBasicRow]
        (minuteString 180)).2.countP (fun e => e.isAction) = 1 := by
  exact basic_schedule_fires_once sampleOracle [sampleServer] sampleBasicRow sampleServer
    180 rfl (by decide) rfl (by decide) rfl (by decide)

/-! ## Broadcast-channel lemmas -/

theorem drain_no_lag (cap : Nat) (hist : List String) (c : Bool) :
    ∀ (fuel p : Nat), p ≤ hist.length → hist.length ≤ p + cap →
      hist.length - p < fuel →
      Channel.drain ⟨cap, hist, c⟩ ⟨p⟩ fuel =
        (hist.drop p).map RecvResult.line ++
          [if c then RecvResult.closedEnd else RecvResult.pending] := by
  intro fuel
  induction fuel with
  | zero => intro p _ _ h; omega
  | succ n ih =>
    intro p hp hcap hfuel
    by_cases hlt : p < hist.length
    · have hrecv : Channel.recv ⟨cap, hist, c⟩ ⟨p⟩ =
          (.line (hist.get ⟨p, hlt⟩), ⟨p + 1⟩) := by
        unfold Channel.recv
        rw [dif_neg (by simp; omega), dif_pos hlt]

      rw [Channel.drain, hrecv]
      rw [List.drop_eq_getElem_cons hlt]
      simp only [List.map_cons, List.cons_append, List.get_eq_getElem]
      exact congrArg _ (ih (p + 1) (by omega) (by omega) (by omega))
    · have hpe : p = hist.length := by omega
      have hdrop : hist.drop p = [] := by
        rw [hpe, List.drop_length]
      have hnl : ¬ p + cap < hist.length := by omega
      cases c with
      | true =>
        have hrecv : Channel.recv ⟨cap, hist, true⟩ ⟨p⟩ = (.closedEnd, ⟨p⟩) := by
          unfold Channel.recv
          rw [dif_neg (by simpa using hnl), dif_neg hlt, if_pos rfl]
        rw [Channel.drain, hrecv, hdrop]
        rfl
      | false =>
        have hrecv : Channel.recv ⟨cap, hist, false⟩ ⟨p⟩ = (.pending, ⟨p⟩) := by
          unfold Channel.recv
          rw [dif_neg (by simpa using hnl), dif_neg hlt, if_neg (by simp)]
        rw [Channel.drain, hrecv, hdrop]
        rfl

theorem drain_lag (cap : Nat) (hist : List String) (c : Bool) (p fuel : Nat)
    (hlag : p + cap < hist.length) :
    Channel.drain ⟨cap, hist, c⟩ ⟨p⟩ (fuel + 1) =
      RecvResult.lagged (hist.length - cap - p) ::
        Channel.drain ⟨cap, hist, c⟩ ⟨hist.length - cap⟩ fuel := by
  have hrecv : Channel.recv ⟨cap, hist, c⟩ ⟨p⟩ =
      (.lagged (hist.length - cap - p), ⟨hist.length - cap⟩) := by
    unfold Channel.recv
    rw [dif_pos (by simpa using hlag)]
  rw [Channel.drain, hrecv]

theorem receivedLines_drain_sublist (cap : Nat) (h0 more : List String) (c : Bool) :
    ∀ (fuel p : Nat), h0.length ≤ p →
      (receivedLines (Channel.drain ⟨cap, h0 ++ more, c⟩ ⟨p⟩ fuel)).Sublist
        (more.drop (p - h0.length)) := by
  intro fuel
  induction fuel with
  | zero =>
    intro p _
    simp [Channel.drain, receivedLines]
  | succ n ih =>
    intro p hp
    by_cases hlag : p + cap < (h0 ++ more).length
    · rw [drain_lag cap _ c p n hlag]
      have hlen : (h0 ++ more).length = h0.length + more.length := by simp
      have hp' : h0.length ≤ (h0 ++ more).length - cap := by omega
      have hsub := ih ((h0 ++ more).length - cap) hp'
      have hrl : receivedLines (RecvResult.lagged ((h0 ++ more).length - cap - p) ::
          Channel.drain ⟨cap, h0 ++ more, c⟩ ⟨(h0 ++ more).length - cap⟩ n) =
          receivedLines (Channel.drain ⟨cap, h0 ++ more, c⟩ ⟨(h0 ++ more).length - cap⟩ n) := by
        simp [receivedLines]
      rw [hrl]
      refine hsub.trans ?_
      have heq : (h0 ++ more).length - cap - h0.length =
          (p - h0.length) + ((h0 ++ more).length - cap - p) := by omega
      rw [heq, ← List.drop_drop]
      exact List.drop_sublist _ _
    · by_cases hlt : p < (h0 ++ more).length
      · have hrecv : Channel.recv ⟨cap, h0 ++ more, c⟩ ⟨p⟩ =
            (.line ((h0 ++ more).get ⟨p, hlt⟩), ⟨p + 1⟩) := by
          unfold Channel.recv
          rw [dif_neg (by simpa using hlag), dif_pos hlt]


        have hlen : (h0 ++ more).length = h0.length + more.length := by simp
        have hbound : p - h0.length < more.length := by omega
        have hget : (h0 ++ more).get ⟨p, hlt⟩ = more.get ⟨p - h0.length, hbound⟩ := by
          simp only [List.get_eq_getElem]
          exact List.getElem_append_right hp
        rw [Channel.drain, hrecv, hget]
        have hrl : receivedLines (RecvResult.line (more.get ⟨p - h0.length, hbound⟩) ::
            Channel.drain ⟨cap, h0 ++ more, c⟩ ⟨p + 1⟩ n) =
            more.get ⟨p - h0.length, hbound⟩ ::
              receivedLines (Channel.drain ⟨cap, h0 ++ more, c⟩ ⟨p + 1⟩ n) := by
          simp [receivedLines]
        rw [hrl]
        rw [List.drop_eq_getElem_cons hbound]
        have htail := ih (p + 1) (by omega)
        have heq : p + 1 - h0.length = (p - h0.length) + 1 := by omega
        rw [heq] at htail
        simp only [List.get_eq_getElem]
        exact htail.cons₂ _
      · cases c with
        | true =>
          have hrecv : Channel.recv ⟨cap, h0 ++ more, true⟩ ⟨p⟩ = (.closedEnd, ⟨p⟩) := by
            unfold Channel.recv
            rw [dif_neg (by simpa using hlag), dif_neg hlt, if_pos rfl]
          rw [Channel.drain, hrecv]
          simp [receivedLines]
        | false =>
          have hrecv : Channel.recv ⟨cap, h0 ++ more, false⟩ ⟨p⟩ = (.pending, ⟨p⟩) := by
            unfold Channel.recv
            rw [dif_neg (by simpa using hlag), dif_neg hlt, if_neg (by simp)]
          rw [Channel.drain, hrecv]
          simp [receivedLines]

theorem closedEnd_not_mem_drain_open (cap : Nat) (hist : List String) :
    ∀ (fuel p : Nat), RecvResult.closedEnd ∉ Channel.drain ⟨cap, hist, false⟩ ⟨p⟩ fuel := by
  intro fuel
  induction fuel with
  | zero =>
    intro p
    simp [Channel.drain]
  | succ n ih =>
    intro p
    by_cases hlag : p + cap < hist.length
    · rw [drain_lag cap hist false p n hlag]
      simp [ih]
    · by_cases hlt : p < hist.length
      · have hrecv : Channel.recv ⟨cap, hist, false⟩ ⟨p⟩ =
            (.line (hist.get ⟨p, hlt⟩), ⟨p + 1⟩) := by
          unfold Channel.recv
          rw [dif_neg (by simpa using hlag), dif_pos hlt]
        rw [Channel.drain, hrecv]
        simp [ih]
      · have hrecv : Channel.recv ⟨cap, hist, false⟩ ⟨p⟩ = (.pending, ⟨p⟩) := by
          unfold Channel.recv
          rw [dif_neg (by simpa using hlag), dif_neg hlt, if_neg (by simp)]
        rw [Channel.drain, hrecv]
        simp

theorem drain_closed_getLast (cap : Nat) (hist : List String) (p fuel : Nat)
    (hp : p ≤ hist.length) (hfuel : hist.length - p + 1 < fuel) :
    (Channel.drain ⟨cap, hist, true⟩ ⟨p⟩ fuel).getLast? = some RecvResult.closedEnd := by
  by_cases hlag : p + cap < hist.length
  · cases fuel with
    | zero => omega
    | succ n =>
      rw [drain_lag cap hist true p n hlag]
      rw [drain_no_lag cap hist true n (hist.length - cap) (by omega) (by omega) (by omega)]
      rw [if_pos rfl, ← List.cons_append]
      exact List.getLast?_concat _
  · rw [drain_no_lag cap hist true fuel p hp (by omega) (by omega)]
    rw [if_pos rfl]
    exact List.getLast?_concat _

/-! ## C5 — delivery to subscribers -/

/-- C5: a subscriber obtained before a batch of lines is published observes,
when it keeps up (the batch fits its backlog capacity), every published line
exactly once and in publication order; a subscriber that falls behind instead
first receives the count of dropped messages and then the retained suffix of
the batch, in order and without duplication; and publishing only appends to
the stream — it never inspects, and hence never blocks on, any subscriber. -/
theorem broadcast_subscriber_delivery :
    (∀ (cap : Nat) (h0 msgs : List String) (fuel : Nat),
      msgs.length ≤ cap → msgs.length < fuel →
        Channel.drain ⟨cap, h0 ++ msgs, false⟩
            (Channel.subscribe ⟨cap, h0, false⟩) fuel =
          msgs.map RecvResult.line ++ [RecvResult.pending]) ∧
    (∀ (cap : Nat) (h0 msgs : List String) (fuel : Nat),
      cap < msgs.length → cap + 1 < fuel →
        Channel.drain ⟨cap, h0 ++ msgs, false⟩
            (Channel.subscribe ⟨cap, h0, false⟩) fuel =
          RecvResult.lagged (msgs.length - cap) ::
            ((msgs.drop (msgs.length - cap)).map RecvResult.line ++
              [RecvResult.pending])) ∧
    (∀ (ch : Channel) (msg : String),
      (Channel.send ch msg).history = ch.history ++ [msg] ∧
      (Channel.send ch msg).capacity = ch.capacity ∧
      (Channel.send ch msg).closed = ch.closed) := by
  refine ⟨?_, ?_, ?_⟩
  · intro cap h0 msgs fuel hcap hfuel
    show Channel.drain ⟨cap, h0 ++ msgs, false⟩ ⟨h0.length⟩ fuel = _
    rw [drain_no_lag cap (h0 ++ msgs) false fuel h0.length (by simp)
      (by simp; omega) (by simp; omega)]
    rw [List.drop_left, if_neg (by simp)]
  · intro cap h0 msgs fuel hcap hfuel
    cases fuel with
    | zero => omega
    | succ n =>
      show Channel.drain ⟨cap, h0 ++ msgs, false⟩ ⟨h0.length⟩ (n + 1) = _
      rw [drain_lag cap (h0 ++ msgs) false h0.length n
        (by simp only [List.length_append]; omega)]
      have hcnt : (h0 ++ msgs).length - cap - h0.length = msgs.length - cap := by
        simp only [List.length_append]; omega
      rw [hcnt]
      rw [drain_no_lag cap (h0 ++ msgs) false n ((h0 ++ msgs).length - cap)
        (by simp only [List.length_append]; omega)
        (by simp only [List.length_append]; omega)
        (by simp only [List.length_append]; omega)]
      have hidx : (h0 ++ msgs).length - cap = h0.length + (msgs.length - cap) := by
        simp only [List.length_append]; omega
      rw [hidx, ← List.drop_drop, List.drop_left, if_neg (by simp)]
  · intro ch msg
    exact ⟨rfl, rfl, rfl⟩

/-- Witness for C5: with capacity 2 and prior history `["a"]`, a keep-up
subscriber receives a 2-line batch in order and then awaits; with a 3-line
batch it first learns that 1 message was dropped and then receives the two
retained lines in order. -/
theorem broadcast_subscriber_delivery_witness :
    Channel.drain ⟨2, ["a"] ++ ["x", "y"], false⟩
        (Channel.subscribe ⟨2, ["a"], false⟩) 3 =
      [RecvResult.line "x", RecvResult.line "y", RecvResult.pending] ∧
    Channel.drain ⟨2, ["a"] ++ ["x", "y", "z"], false⟩
        (Channel.subscribe ⟨2, ["a"], false⟩) 4 =
      [RecvResult.lagged 1, RecvResult.line "y", RecvResult.line "z",
        RecvResult.pending] := by
  constructor
  · have h := broadcast_subscriber_delivery.1 2 ["a"] ["x", "y"] 3
      (by decide) (by decide)
    simpa using h
  · have h := broadcast_subscriber_delivery.2.1 2 ["a"] ["x", "y", "z"] 4
      (by decide) (by decide)
    simpa using h

/-! ## C6 — forward-only subscriptions and end-of-stream -/

/-- C6: a subscription created by `subscribe_logs` never delivers a line
published before it began — whatever was published afterwards and however far
the console loop runs, the delivered lines form an in-order selection of the
lines published after the subscription; on an open channel the loop never
observes end-of-stream (it terminates only if the subscriber itself drops the
connection), and once the broadcaster is closed (as `remove(id)` does) the loop of every subscriber ends with the end-of-stream signal after the buffered lines
are delivered. -/
theorem broadcast_forward_only_and_terminal :
    (∀ (cap : Nat) (h0 more : List String) (c : Bool) (fuel : Nat),
      (receivedLines (Channel.drain ⟨cap, h0 ++ more, c⟩
          (Channel.subscribe ⟨cap, h0, false⟩) fuel)).Sublist more) ∧
    (∀ (cap : Nat) (hist : List String) (p fuel : Nat),
      RecvResult.closedEnd ∉ Channel.drain ⟨cap, hist, false⟩ ⟨p⟩ fuel) ∧
    (∀ (ch : Channel) (p fuel : Nat),
      p ≤ ch.history.length → ch.history.length - p + 1 < fuel →
        (Channel.drain (Channel.close ch) ⟨p⟩ fuel).getLast? =
          some RecvResult.closedEnd) := by
  refine ⟨?_, ?_, ?_⟩
  · intro cap h0 more c fuel
    have h := receivedLines_drain_sublist cap h0 more c fuel h0.length le_rfl
    simpa using h
  · intro cap hist p fuel
    exact closedEnd_not_mem_drain_open cap hist fuel p
  · intro ch p fuel hp hfuel
    obtain ⟨cc, hh, cl⟩ := ch
    exact drain_closed_getLast cc hh p fuel hp hfuel

/-- Witness for C6: a subscriber joining after `["a"]` was published receives
only a selection of the later lines; the loop on an open channel never sees
end-of-stream; closing the channel delivers it. -/
theorem broadcast_forward_only_and_terminal_witness :
    (receivedLines (Channel.drain ⟨2, ["a"] ++ ["x", "y", "z"], false⟩
        (Channel.subscribe ⟨2, ["a"], false⟩) 10)).Sublist ["x", "y", "z"] ∧
    RecvResult.closedEnd ∉ Channel.drain ⟨2, ["a"], false⟩ ⟨0⟩ 5 ∧
    (Channel.drain (Channel.close ⟨5, ["a", "x"], false⟩) ⟨1⟩ 9).getLast? =
      some RecvResult.closedEnd := by
  refine ⟨broadcast_forward_only_and_terminal.1 2 ["a"] ["x", "y", "z"] false 10,
    broadcast_forward_only_and_terminal.2.1 2 ["a"] 0 5,
    broadcast_forward_only_and_terminal.2.2 ⟨5, ["a", "x"], false⟩ 1 9
      (by decide) (by decide)⟩

/-! ## Install-pipeline lemmas -/

theorem applyInstallEvents_append (reg : Registry) (l1 l2 : List InstallEvent) :
    applyInstallEvents reg (l1 ++ l2) =
      applyInstallEvents (applyInstallEvents reg l1) l2 := by
  induction l1 generalizing reg with
  | nil => rfl
  | cons e rest ih =>
    cases e <;> simp [applyInstallEvents, ih]

theorem is_installing_applyInstallEvents_concat_remove (reg : Registry)
    (l : List InstallEvent) (id : String) :
    (applyInstallEvents reg (l ++ [.removeDesc id])).is_installing id = false := by
  rw [applyInstallEvents_append]
  simp [applyInstallEvents, is_installing_remove]

theorem runStep_not_mem_broadcastAndLog (id msg cmd : String) :
    InstallEvent.runStep cmd ∉ broadcastAndLog id msg := by
  by_cases h : authTrigger msg <;> simp [broadcastAndLog, h]

theorem lookup_append_installing (procs : List (String × ProcState)) (n : Nat)
    (id : String) (h : Registry.lookup ⟨procs, n⟩ id = none) :
    Registry.lookup ⟨procs ++ [(id, .installing)], n⟩ id = some .installing := by
  simp only [Registry.lookup] at h ⊢
  rw [Option.map_eq_none'] at h
  rw [List.find?_append, h]
  simp [List.find?]

/-! ## C2 — failure handling in the install pipeline -/

set_option maxRecDepth 4000 in
/-- Counterexample to C2 as stated: when the downloader-execution step exits
with code 7, the pipeline writes the failure line but then still runs a
further subprocess step (the nested-archive `unzip` occurs after the failure
line in the event trace), so it is not true that every non-zero step exit
aborts all remaining steps. -/
theorem install_pipeline_counterexample :
    (7 : Nat) ≠ 0 ∧
    List.Sublist
      [InstallEvent.broadcast ("❌ " ++ cmdFailedMsg 7), InstallEvent.runStep "unzip"]
      (installTask "sv1" 0 0 0 7 [("hytale-server.zip", 0)] false) := by
  constructor
  · decide
  · decide

/-- C2 (amended): a non-zero exit of the download step aborts every
remaining step — the trace ends right after the failure line with
`remove(id)`, the extract step never runs, and `is_installing(id)` is false
afterwards; a non-zero exit of the archive-extraction step likewise aborts,
never reaching the downloader execution; a non-zero exit of the
downloader-execution step is instead only logged — the failure line is
written and `remove(id)` is still called at pipeline end, but later steps
still run (see the counterexample). -/
theorem install_step_failure_handling :
    (∀ (id : String) (u ch d : Nat) (nz : List (String × Nat)) (j : Bool) (c : Nat),
      c ≠ 0 →
        installTask id c u ch d nz j =
          [.initLog id] ++
            broadcastAndLog id "🚀 Initialization de l’installation du serveur..." ++
            broadcastAndLog id
              "⬇️ Téléchargement de Hytale Downloader depuis https://downloader.hytale.com/hytale-downloader.zip..." ++
            [.runStep "curl"] ++
            broadcastAndLog id ("❌ " ++ cmdFailedMsg c) ++ [.removeDesc id] ∧
        InstallEvent.runStep "unzip" ∉ installTask id c u ch d nz j ∧
        ∀ reg : Registry,
          (applyInstallEvents reg (installTask id c u ch d nz j)).is_installing id =
            false) ∧
    (∀ (id : String) (ch d : Nat) (nz : List (String × Nat)) (j : Bool) (u : Nat),
      u ≠ 0 →
        installTask id 0 u ch d nz j =
          [.initLog id] ++
            broadcastAndLog id "🚀 Initialization de l’installation du serveur..." ++
            broadcastAndLog id
              "⬇️ Téléchargement de Hytale Downloader depuis https://downloader.hytale.com/hytale-downloader.zip..." ++
            [.runStep "curl"] ++
            broadcastAndLog id "✅ Téléchargement terminé." ++
            broadcastAndLog id "📦 Extraction de l’archive..." ++
            [.runStep "unzip"] ++
            broadcastAndLog id ("❌ " ++ cmdFailedMsg u) ++ [.removeDesc id] ∧
        InstallEvent.runStep "downloader" ∉ installTask id 0 u ch d nz j ∧
        ∀ reg : Registry,
          (applyInstallEvents reg (installTask id 0 u ch d nz j)).is_installing id =
            false) ∧
    (∀ (id : String) (ch : Nat) (nz : List (String × Nat)) (j : Bool) (d : Nat),
      d ≠ 0 →
        InstallEvent.broadcast ("❌ " ++ cmdFailedMsg d) ∈ installTask id 0 0 ch d nz j ∧
        InstallEvent.removeDesc id ∈ installTask id 0 0 ch d nz j) := by
  refine ⟨?_, ?_, ?_⟩
  · intro id u ch d nz j c hc
    have hb : (c != 0) = true := by simpa using hc
    have heq : installTask id c u ch d nz j =
        [.initLog id] ++
          broadcastAndLog id "🚀 Initialization de l’installation du serveur..." ++
          broadcastAndLog id
            "⬇️ Téléchargement de Hytale Downloader depuis https://downloader.hytale.com/hytale-downloader.zip..." ++
          [.runStep "curl"] ++
          broadcastAndLog id ("❌ " ++ cmdFailedMsg c) ++ [.removeDesc id] := by
      simp only [installTask, hb, if_true, List.append_assoc]
    refine ⟨heq, ?_, ?_⟩
    · rw [heq]
      simp [runStep_not_mem_broadcastAndLog]
    · intro reg
      rw [heq]
      rw [show [InstallEvent.initLog id] ++
          broadcastAndLog id "🚀 Initialization de l’installation du serveur..." ++
          broadcastAndLog id
            "⬇️ Téléchargement de Hytale Downloader depuis https://downloader.hytale.com/hytale-downloader.zip..." ++
          [.runStep "curl"] ++
          broadcastAndLog id ("❌ " ++ cmdFailedMsg c) ++ [.removeDesc id] =
          ([InstallEvent.initLog id] ++
            broadcastAndLog id "🚀 Initialization de l’installation du serveur..." ++
            broadcastAndLog id
              "⬇️ Téléchargement de Hytale Downloader depuis https://downloader.hytale.com/hytale-downloader.zip..." ++
            [.runStep "curl"] ++
            broadcastAndLog id ("❌ " ++ cmdFailedMsg c)) ++ [.removeDesc id]
        from by simp [List.append_assoc]]
      exact is_installing_applyInstallEvents_concat_remove reg _ id
  · intro id ch d nz j u hu
    have hb : (u != 0) = true := by simpa using hu
    have heq : installTask id 0 u ch d nz j =
        [.initLog id] ++
          broadcastAndLog id "🚀 Initialization de l’installation du serveur..." ++
          broadcastAndLog id
            "⬇️ Téléchargement de Hytale Downloader depuis https://downloader.hytale.com/hytale-downloader.zip..." ++
          [.runStep "curl"] ++
          broadcastAndLog id "✅ Téléchargement terminé." ++
          broadcastAndLog id "📦 Extraction de l’archive..." ++
          [.runStep "unzip"] ++
          broadcastAndLog id ("❌ " ++ cmdFailedMsg u) ++ [.removeDesc id] := by
      simp only [installTask, hb, if_true, List.append_assoc]
      norm_num
    refine ⟨heq, ?_, ?_⟩
    · rw [heq]
      simp [runStep_not_mem_broadcastAndLog]
    · intro reg
      rw [heq]
      rw [show [InstallEvent.initLog id] ++
          broadcastAndLog id "🚀 Initialization de l’installation du serveur..." ++
          broadcastAndLog id
            "⬇️ Téléchargement de Hytale Downloader depuis https://downloader.hytale.com/hytale-downloader.zip..." ++
          [.runStep "curl"] ++
          broadcastAndLog id "✅ Téléchargement terminé." ++
          broadcastAndLog id "📦 Extraction de l’archive..." ++
          [.runStep "unzip"] ++
          broadcastAndLog id ("❌ " ++ cmdFailedMsg u) ++ [.removeDesc id] =
          ([InstallEvent.initLog id] ++
            broadcastAndLog id "🚀 Initialization de l’installation du serveur..." ++
            broadcastAndLog id
              "⬇️ Téléchargement de Hytale Downloader depuis https://downloader.hytale.com/hytale-downloader.zip..." ++
            [.runStep "curl"] ++
            broadcastAndLog id "✅ Téléchargement terminé." ++
            broadcastAndLog id "📦 Extraction de l’archive..." ++
            [.runStep "unzip"] ++
            broadcastAndLog id ("❌ " ++ cmdFailedMsg u)) ++ [.removeDesc id]
        from by simp [List.append_assoc]]
      exact is_installing_applyInstallEvents_concat_remove reg _ id
  · intro id ch nz j d hd
    have hb : (d != 0) = true := by simpa using hd
    constructor
    · simp [installTask, hb, broadcastAndLog, List.mem_append]
    · simp [installTask, hb, broadcastAndLog, List.mem_append]

/-- Witness for C2 (amended): concrete traces for a failed download (code 6),
a failed extraction (code 5), and a failed downloader execution (code 7). -/
theorem install_step_failure_handling_witness :
    (installTask "sv1" 6 0 0 0 [] false =
      [.initLog "sv1"] ++
        broadcastAndLog "sv1" "🚀 Initialization de l’installation du serveur..." ++
        broadcastAndLog "sv1"
          "⬇️ Téléchargement de Hytale Downloader depuis https://downloader.hytale.com/hytale-downloader.zip..." ++
        [.runStep "curl"] ++
        broadcastAndLog "sv1" ("❌ " ++ cmdFailedMsg 6) ++ [.removeDesc "sv1"]) ∧
    InstallEvent.runStep "unzip" ∉ installTask "sv1" 6 0 0 0 [] false ∧
    InstallEvent.runStep "downloader" ∉ installTask "sv1" 0 5 0 0 [] false ∧
    (applyInstallEvents ⟨[("sv1", .installing)], 0⟩
        (installTask "sv1" 6 0 0 0 [] false)).is_installing "sv1" = false ∧
    InstallEvent.broadcast ("❌ " ++ cmdFailedMsg 7) ∈
      installTask "sv1" 0 0 0 7 [] false ∧
    InstallEvent.removeDesc "sv1" ∈ installTask "sv1" 0 0 0 7 [] false := by
  have h1 := install_step_failure_handling.1 "sv1" 0 0 0 [] false 6 (by decide)
  have h2 := install_step_failure_handling.2.1 "sv1" 0 0 [] false 5 (by decide)
  have h3 := install_step_failure_handling.2.2 "sv1" 0 [] false 7 (by decide)
  exact ⟨h1.1, h1.2.1, h2.2.1, h1.2.2 ⟨[("sv1", .installing)], 0⟩, h3.1, h3.2⟩

/-! ## C9 — the install task is gated on `register_installing` -/

/-- C9: the spawned install task performs no pipeline step — no event at all
— unless `register_installing(id)` succeeded: with an existing descriptor for
`id` the registration fails, the inner task is aborted before its first step,
and the registry is unchanged; conversely, whenever any pipeline event was
produced, registration succeeded on a previously descriptor-free `id`, which
the returned registry then holds in Installing state. -/
theorem install_gated_on_register :
    (∀ (reg : Registry) (id : String) (c u ch d : Nat) (nz : List (String × Nat))
        (j : Bool),
      (reg.lookup id).isSome →
        spawn_hytale_installation reg id c u ch d nz j = (reg, [])) ∧
    (∀ (reg : Registry) (id : String) (c u ch d : Nat) (nz : List (String × Nat))
        (j : Bool),
      (spawn_hytale_installation reg id c u ch d nz j).2 ≠ [] →
        reg.lookup id = none ∧
        (spawn_hytale_installation reg id c u ch d nz j).1.is_installing id = true) := by
  constructor
  · intro reg id c u ch d nz j h
    obtain ⟨st, hst⟩ := Option.isSome_iff_exists.mp h
    simp [spawn_hytale_installation, Registry.register_installing, hst]
  · intro reg id c u ch d nz j h
    cases hl : reg.lookup id with
    | some st =>
      exfalso
      apply h
      simp [spawn_hytale_installation, Registry.register_installing, hl]
    | none =>
      refine ⟨rfl, ?_⟩
      obtain ⟨procs, n⟩ := reg
      simp only [spawn_hytale_installation, Registry.register_installing, hl]
      simp [Registry.is_installing, lookup_append_installing procs n id hl]

/-- Witness for C9: with `sv1` already registered, spawning the installation
produces no event; on a fresh registry the events are nonempty and the
returned registry holds `sv1` as Installing. -/
theorem install_gated_on_register_witness :
    spawn_hytale_installation ⟨[("sv1", .running)], 1⟩ "sv1" 0 0 0 0 [] true =
      (⟨[("sv1", .running)], 1⟩, []) ∧
    (Registry.lookup ⟨[], 0⟩ "sv1" = none ∧
      (spawn_hytale_installation ⟨[], 0⟩ "sv1" 0 0 0 0 [] true).1.is_installing "sv1" =
        true) := by
  constructor
  · exact install_gated_on_register.1 ⟨[("sv1", .running)], 1⟩ "sv1" 0 0 0 0 [] true rfl
  · exact install_gated_on_register.2 ⟨[], 0⟩ "sv1" 0 0 0 0 [] true (by decide)

end Draveur
